import Mathlib

/-!
Verification of the replication-offset, wire-codec, keyspace and snapshot-loader
components of a Redis-compatible server written in Rust.  The Rust sources are
shallowly embedded: byte strings become `List Nat` (each element a byte value),
machine integers become `Nat`/`Int` with explicit wrapping where the source can
overflow, fallible operations return `Option`/`Except`, and stateful code is
written in explicit state-passing style.  Real time (tokio timeouts, sleeps) is
outside the embedding; a sleep duration is carried as data.
-/

namespace CCRedis

/-- Byte value of the ASCII carriage-return/line-feed delimiter pair
(`DELIMITER_BYTES` in resp.rs). -/
def crlf : List Nat := [13, 10]

/-- ASCII decimal digit test, `48 ≤ b ≤ 57`. -/
def isDigit (b : Nat) : Bool := decide (48 ≤ b ∧ b ≤ 57)

/-- Little-endian decimal digits of `n`, computed with structural fuel so that
the definition reduces by `rfl`/`decide`.  Agrees with `Nat.digits 10` whenever
`n ≤ fuel` (proved below). -/
def digitsRevAux : Nat → Nat → List Nat
  | _, 0 => []
  | 0, _ + 1 => []
  | fuel + 1, n + 1 => (n + 1) % 10 :: digitsRevAux fuel ((n + 1) / 10)

/-- ASCII bytes of the canonical decimal rendering of a natural number, as
produced by Rust's `format!` / `to_string` on unsigned integers. -/
def natToDecimal (n : Nat) : List Nat :=
  if n = 0 then [48] else ((digitsRevAux n n).map (fun d => d + 48)).reverse

/-- ASCII bytes of the canonical decimal rendering of a signed integer, as
produced by Rust's `to_string` on `i64`. -/
def intToDecimal (n : Int) : List Nat :=
  if n < 0 then 45 :: natToDecimal n.natAbs else natToDecimal n.toNat

/-- Folding step of decimal-string parsing: `acc * 10 + digit`. -/
def digitStep (a b : Nat) : Nat := a * 10 + (b - 48)

/-- Largest `usize` value (the target is 64-bit). -/
def usizeMax : Nat := 2 ^ 64 - 1

/-- Largest `i64` value. -/
def i64Max : Int := 2 ^ 63 - 1

/-- Parse of a nonempty all-digit byte string into a natural number. -/
def parseDigits (l : List Nat) : Option Nat :=
  if l.isEmpty then none
  else if l.all isDigit then some (l.foldl digitStep 0)
  else none

/-- Rust `str::parse::<usize>`: an optional leading plus sign, then decimal
digits; values beyond `usize::MAX` are rejected (overflow error). -/
def parseUsize (l : List Nat) : Option Nat :=
  match l with
  | [] => none
  | b :: rest =>
    let digits := if b = 43 then rest else l
    match parseDigits digits with
    | none => none
    | some n => if n ≤ usizeMax then some n else none

/-- Rust `str::parse::<i64>`: an optional leading plus or minus sign, then
decimal digits, with the two's-complement range check. -/
def parseI64 (l : List Nat) : Option Int :=
  match l with
  | [] => none
  | b :: rest =>
    if b = 43 then
      match parseDigits rest with
      | none => none
      | some n => if (n : Int) ≤ i64Max then some (n : Int) else none
    else if b = 45 then
      match parseDigits rest with
      | none => none
      | some n => if (n : Int) ≤ 2 ^ 63 then some (-(n : Int)) else none
    else
      match parseDigits l with
      | none => none
      | some n => if (n : Int) ≤ i64Max then some (n : Int) else none

/-- Continuation-byte test for UTF-8 (`0x80..=0xBF`). -/
def utf8Cont (b : Nat) : Bool := decide (128 ≤ b ∧ b ≤ 191)

/-- First step of UTF-8 validation: if the byte string starts with one valid
code point, return the number of bytes that code point occupies; otherwise
`none`.  Follows the standard table (as enforced by Rust's `str::from_utf8`
and by `read_line`): ASCII bytes stand alone; two-, three- and four-byte
sequences have the usual lead-byte ranges, with the overlong, surrogate and
out-of-range exclusions on the first continuation byte. -/
def utf8Step : List Nat → Option Nat
  | [] => none
  | b0 :: t0 =>
    if b0 < 128 then some 1
    else if 194 ≤ b0 ∧ b0 ≤ 223 then
      match t0 with
      | b1 :: _ => if utf8Cont b1 then some 2 else none
      | [] => none
    else if b0 = 224 then
      match t0 with
      | b1 :: b2 :: _ =>
        if (160 ≤ b1 ∧ b1 ≤ 191) ∧ utf8Cont b2 = true then some 3 else none
      | _ => none
    else if (225 ≤ b0 ∧ b0 ≤ 236) ∨ b0 = 238 ∨ b0 = 239 then
      match t0 with
      | b1 :: b2 :: _ =>
        if utf8Cont b1 ∧ utf8Cont b2 = true then some 3 else none
      | _ => none
    else if b0 = 237 then
      match t0 with
      | b1 :: b2 :: _ =>
        if (128 ≤ b1 ∧ b1 ≤ 159) ∧ utf8Cont b2 = true then some 3 else none
      | _ => none
    else if b0 = 240 then
      match t0 with
      | b1 :: b2 :: b3 :: _ =>
        if (144 ≤ b1 ∧ b1 ≤ 191) ∧ utf8Cont b2 = true ∧ utf8Cont b3 = true then some 4 else none
      | _ => none
    else if 241 ≤ b0 ∧ b0 ≤ 243 then
      match t0 with
      | b1 :: b2 :: b3 :: _ =>
        if utf8Cont b1 ∧ utf8Cont b2 = true ∧ utf8Cont b3 = true then some 4 else none
      | _ => none
    else if b0 = 244 then
      match t0 with
      | b1 :: b2 :: b3 :: _ =>
        if (128 ≤ b1 ∧ b1 ≤ 143) ∧ utf8Cont b2 = true ∧ utf8Cont b3 = true then some 4 else none
      | _ => none
    else none

/-- Fuel-driven iteration of `utf8Step`; a byte string is valid UTF-8 when it
splits into a sequence of valid code points.  Each step consumes at least one
byte, so fuel equal to the length suffices. -/
def isValidUtf8Aux : Nat → List Nat → Bool
  | _, [] => true
  | 0, _ :: _ => false
  | fuel + 1, b :: t =>
    match utf8Step (b :: t) with
    | none => false
    | some k => isValidUtf8Aux fuel ((b :: t).drop k)

/-- Validity of a byte string as UTF-8 (Rust's `str::from_utf8` check). -/
def isValidUtf8 (l : List Nat) : Bool := isValidUtf8Aux l.length l

theorem digitsRevAux_eq_digits : ∀ (fuel n : Nat), n ≤ fuel → digitsRevAux fuel n = Nat.digits 10 n := by
  intro fuel
  induction fuel with
  | zero =>
    intro n hn
    interval_cases n
    rw [Nat.digits_zero]
    rfl
  | succ f ih =>
    intro n hn
    match n with
    | 0 => rw [Nat.digits_zero]; rfl
    | m + 1 =>
      rw [digitsRevAux, Nat.digits_def' (by norm_num : (1 : Nat) < 10) (Nat.succ_pos m)]
      have hdiv : (m + 1) / 10 ≤ f := by
        have := Nat.div_le_self (m + 1) 10
        have h2 : (m + 1) / 10 < m + 1 := Nat.div_lt_self (Nat.succ_pos m) (by norm_num)
        omega
      rw [ih _ hdiv]

theorem natToDecimal_eq (n : Nat) (hn : n ≠ 0) :
    natToDecimal n = ((Nat.digits 10 n).map (fun d => d + 48)).reverse := by
  rw [natToDecimal, if_neg hn, digitsRevAux_eq_digits n n (Nat.le_refl n)]

theorem natToDecimal_all_digits (n : Nat) : ∀ b ∈ natToDecimal n, 48 ≤ b ∧ b ≤ 57 := by
  by_cases hn : n = 0
  · subst hn
    intro b hb
    simp [natToDecimal] at hb
    omega
  · rw [natToDecimal_eq n hn]
    intro b hb
    rw [List.mem_reverse, List.mem_map] at hb
    obtain ⟨d, hd, rfl⟩ := hb
    have := Nat.digits_lt_base (by norm_num : (1 : Nat) < 10) hd
    omega

theorem natToDecimal_ne_nil (n : Nat) : natToDecimal n ≠ [] := by
  by_cases hn : n = 0
  · subst hn; simp [natToDecimal]
  · rw [natToDecimal_eq n hn]
    simp [Nat.digits_ne_nil_iff_ne_zero, hn]

theorem natToDecimal_len_le (n k : Nat) (hk : 1 ≤ k) (h : n < 10 ^ k) :
    (natToDecimal n).length ≤ k := by
  by_cases hn : n = 0
  · subst hn; simpa [natToDecimal] using hk
  · rw [natToDecimal_eq n hn]
    rw [List.length_reverse, List.length_map]
    rw [Nat.digits_len 10 n (by norm_num) hn]
    have := Nat.log_lt_of_lt_pow hn h
    omega

theorem foldl_digitStep (L : List Nat) (a : Nat) (hL : ∀ d ∈ L, d < 10) :
    (L.map (fun d => d + 48)).foldl digitStep a = a * 10 ^ L.length + Nat.ofDigits 10 L.reverse := by
  induction L generalizing a with
  | nil => simp [Nat.ofDigits]
  | cons d L ih =>
    have hd : d < 10 := hL d (List.mem_cons_self d L)
    have hL2 : ∀ x ∈ L, x < 10 := fun x hx => hL x (List.mem_cons_of_mem d hx)
    simp only [List.map_cons, List.foldl_cons]
    rw [ih _ hL2]
    have hstep : digitStep a (d + 48) = a * 10 + d := by
      simp [digitStep]
    rw [hstep]
    rw [List.reverse_cons, Nat.ofDigits_append]
    simp only [List.length_cons, List.length_reverse]
    have : Nat.ofDigits 10 [d] = d := by simp [Nat.ofDigits]
    rw [this]
    ring

theorem parseDigits_natToDecimal (n : Nat) : parseDigits (natToDecimal n) = some n := by
  by_cases hn : n = 0
  · subst hn; rfl
  · have hall : (natToDecimal n).all isDigit = true := by
      rw [List.all_eq_true]
      intro b hb
      have := natToDecimal_all_digits n b hb
      simp [isDigit]
      omega
    have hne : (natToDecimal n).isEmpty = false := by
      cases h : natToDecimal n with
      | nil => exact absurd h (natToDecimal_ne_nil n)
      | cons a l => rfl
    rw [parseDigits, hne, if_neg (by simp), if_pos hall]
    rw [natToDecimal_eq n hn, ← List.map_reverse]
    rw [foldl_digitStep _ 0 (fun d hd => Nat.digits_lt_base (by norm_num) (List.mem_reverse.mp hd))]
    simp [Nat.ofDigits_digits]

theorem parseUsize_natToDecimal (n : Nat) (hn : n ≤ usizeMax) :
    parseUsize (natToDecimal n) = some n := by
  have hd := parseDigits_natToDecimal n
  cases h : natToDecimal n with
  | nil => exact absurd h (natToDecimal_ne_nil n)
  | cons b rest =>
    have hb : 48 ≤ b ∧ b ≤ 57 := by
      apply natToDecimal_all_digits n
      rw [h]; exact List.mem_cons_self b rest
    rw [h] at hd
    rw [parseUsize]
    have hb43 : ¬ (b = 43) := by omega
    simp only [if_neg hb43]
    rw [hd]
    simp [hn]

theorem isValidUtf8Aux_ascii :
    ∀ (fuel : Nat) (l : List Nat), l.length ≤ fuel → (∀ b ∈ l, b < 128) →
      isValidUtf8Aux fuel l = true := by
  intro fuel
  induction fuel with
  | zero =>
    intro l hl _
    match l with
    | [] => rfl
    | b :: t => simp at hl
  | succ f ih =>
    intro l hl h
    match l with
    | [] => rfl
    | b :: t =>
      have hb : b < 128 := h b (List.mem_cons_self b t)
      have hstep : utf8Step (b :: t) = some 1 := by
        rw [utf8Step.eq_def]
        simp only [if_pos hb]
      rw [isValidUtf8Aux, hstep]
      simp only [List.drop_succ_cons, List.drop_zero]
      apply ih t (by simp at hl; omega)
      exact fun x hx => h x (List.mem_cons_of_mem b hx)

theorem isValidUtf8_ascii (l : List Nat) (h : ∀ b ∈ l, b < 128) : isValidUtf8 l = true :=
  isValidUtf8Aux_ascii l.length l (Nat.le_refl _) h

/-! ## Wire codec (resp.rs)

The reader is modelled as a byte list; each read returns the value, the number
of bytes consumed, and the remaining bytes.  `exec_with_timeout` only turns a
slow read into a failure and is outside the embedding (real time). -/

/-- Byte consumption of `reader.take(limit).read_line(..)`: bytes up to and
including the first line feed, but at most `limit` bytes; at end of input the
whole remainder.  Returns the line read and the unconsumed rest. -/
def takeLine : Nat → List Nat → List Nat × List Nat
  | _, [] => ([], [])
  | limit, b :: rest =>
    if limit = 0 then ([], b :: rest)
    else if b = 10 then ([b], rest)
    else
      match takeLine (limit - 1) rest with
      | (line, rem) => (b :: line, rem)

/-- Model of `reader.take(limit).read_line(&mut buf)`: the consumed bytes must
be valid UTF-8, else the read reports an error. -/
def readLineModel (limit : Nat) (s : List Nat) : Option (List Nat × List Nat) :=
  match takeLine limit s with
  | (line, rem) => if isValidUtf8 line then some (line, rem) else none

/-- Rust `str::strip_prefix` at the byte level. -/
def stripPref (p l : List Nat) : Option (List Nat) :=
  if l.take p.length = p then some (l.drop p.length) else none

/-- Rust `str::strip_suffix` at the byte level. -/
def stripSuf (suf l : List Nat) : Option (List Nat) :=
  if l.length < suf.length then none
  else if l.drop (l.length - suf.length) = suf then some (l.take (l.length - suf.length))
  else none

/-- Rust slice `ends_with`. -/
def ends_with (l suf : List Nat) : Bool :=
  if l.length < suf.length then false else decide (l.drop (l.length - suf.length) = suf)

/-- Model of resp.rs `read_int`: read one line (at most 10 bytes), require it
nonempty, strip the expected type marker and the trailing delimiter, parse a
`usize`, and reject values above `max`.  Returns the integer, the number of
bytes consumed, and the remaining input.  (`is_eof_expected` only selects a
log message and is dropped.) -/
def read_int (s : List Nat) (expected_type_marker : List Nat) (max : Nat) :
    Option (Nat × Nat × List Nat) :=
  match readLineModel 10 s with
  | none => none
  | some (buf, rest) =>
    if buf.length = 0 then none
    else
      match stripPref expected_type_marker buf with
      | none => none
      | some buf1 =>
        match stripSuf crlf buf1 with
        | none => none
        | some buf2 =>
          match parseUsize buf2 with
          | none => none
          | some int => if max < int then none else some (int, buf.length, rest)

/-- Model of resp.rs `read_command_array_size`. -/
def read_command_array_size (s : List Nat) : Option (Nat × Nat × List Nat) :=
  read_int s [42] 100

/-- Model of resp.rs `read_binary_string_size`. -/
def read_binary_string_size (s : List Nat) : Option (Nat × Nat × List Nat) :=
  read_int s [36] 300

/-- Model of resp.rs `read_binary_string_body`: `read_exact` of the declared
size (plus the delimiter when expected), check and drop the delimiter. -/
def read_binary_string_body (s : List Nat) (expected_size : Nat) (with_delimiter : Bool) :
    Option (List Nat × Nat × List Nat) :=
  let buffer_size := cond with_delimiter (expected_size + 2) expected_size
  if s.length < buffer_size then none
  else
    let result := s.take buffer_size
    let rest := s.drop buffer_size
    cond with_delimiter
      (if ends_with result crlf then some (result.take (result.length - 2), buffer_size, rest)
       else none)
      (some (result, buffer_size, rest))

/-- Model of resp.rs `read_binary_string_with_size`. -/
def read_binary_string_with_size (s : List Nat) (with_delimiter : Bool) :
    Option (List Nat × Nat × List Nat) :=
  match read_binary_string_size s with
  | none => none
  | some (size, size_bytes, rest) =>
    match read_binary_string_body rest size with_delimiter with
    | none => none
    | some (string, string_bytes, rest2) => some (string, size_bytes + string_bytes, rest2)

/-- The parameter-reading loop of resp.rs `read_command`, accumulating the
parsed bulk strings and the bytes consumed. -/
def readParams : Nat → List Nat → Option (List (List Nat) × Nat × List Nat)
  | 0, s => some ([], 0, s)
  | k + 1, s =>
    match read_binary_string_with_size s true with
    | none => none
    | some (param, param_bytes, rest) =>
      match readParams k rest with
      | none => none
      | some (params, bytes, rest2) => some (param :: params, param_bytes + bytes, rest2)

/-- Model of resp.rs `read_command`: one request array, returning the argv,
the exact byte count consumed, and the remaining input. -/
def read_command (s : List Nat) : Option (List (List Nat) × Nat × List Nat) :=
  match read_command_array_size s with
  | none => none
  | some (array_size, read_bytes, rest) =>
    match readParams array_size rest with
    | none => none
    | some (command, param_bytes, rest2) => some (command, read_bytes + param_bytes, rest2)

/-- Bytes produced by resp.rs `write_binary_string`. -/
def write_binary_string_bytes (s : List Nat) (with_delimiter : Bool) : List Nat :=
  [36] ++ natToDecimal s.length ++ crlf ++ s ++ (if with_delimiter then crlf else [])

/-- Bytes produced by resp.rs `write_array_of_strings`. -/
def write_array_of_strings_bytes (strings : List (List Nat)) : List Nat :=
  [42] ++ natToDecimal strings.length ++ crlf
    ++ (strings.map (fun s => write_binary_string_bytes s true)).flatten

theorem natToDecimal_lt128 (n : Nat) : ∀ b ∈ natToDecimal n, b < 128 := by
  intro b hb
  have := natToDecimal_all_digits n b hb
  omega

theorem natToDecimal_not10 (n : Nat) : 10 ∉ natToDecimal n := by
  intro h
  have := natToDecimal_all_digits n 10 h
  omega

theorem takeLine_canonical :
    ∀ (l : List Nat) (limit : Nat) (rest : List Nat), 10 ∉ l → l.length + 1 ≤ limit →
      takeLine limit (l ++ 10 :: rest) = (l ++ [10], rest) := by
  intro l
  induction l with
  | nil =>
    intro limit rest _ hlim
    rw [List.nil_append, takeLine]
    rw [if_neg (by omega), if_pos rfl]
    rfl
  | cons b l ih =>
    intro limit rest hmem hlim
    have hb : ¬ (b = 10) := by
      intro h
      exact hmem (h ▸ List.mem_cons_self b l)
    rw [List.cons_append, takeLine]
    rw [if_neg (by omega : ¬ (limit = 0)), if_neg hb]
    rw [ih (limit - 1) rest (fun h => hmem (List.mem_cons_of_mem b h)) (by simp at hlim ⊢; omega)]
    dsimp only
    rw [List.cons_append]

theorem readLineModel_canonical (l : List Nat) (rest : List Nat)
    (hascii : ∀ b ∈ l, b < 128) (h10 : 10 ∉ l) (hlim : l.length + 1 ≤ 10) :
    readLineModel 10 (l ++ 10 :: rest) = some (l ++ [10], rest) := by
  rw [readLineModel, takeLine_canonical l 10 rest h10 hlim]
  dsimp only
  rw [isValidUtf8_ascii]
  · rw [if_pos rfl]
  · intro b hb
    rw [List.mem_append] at hb
    cases hb with
    | inl h => exact hascii b h
    | inr h =>
      simp at h
      omega

theorem stripPref_cons (c : Nat) (xs : List Nat) : stripPref [c] (c :: xs) = some xs := by
  simp [stripPref]

theorem stripSuf_append (xs : List Nat) : stripSuf crlf (xs ++ crlf) = some xs := by
  have hc : crlf.length = 2 := rfl
  rw [stripSuf]
  rw [if_neg (by rw [List.length_append, hc]; omega)]
  have hsub : (xs ++ crlf).length - crlf.length = xs.length := by
    rw [List.length_append, hc]
    omega
  rw [hsub, List.drop_left, if_pos rfl, List.take_left]

theorem read_int_canonical (c n max : Nat) (rest : List Nat)
    (hc : c < 128) (hc10 : c ≠ 10)
    (hmax : n ≤ max) (hbig : max ≤ usizeMax) (hlen : (natToDecimal n).length + 3 ≤ 10) :
    read_int ([c] ++ natToDecimal n ++ crlf ++ rest) [c] max
      = some (n, (natToDecimal n).length + 3, rest) := by
  have hshape : [c] ++ natToDecimal n ++ crlf ++ rest
      = (c :: (natToDecimal n ++ [13])) ++ 10 :: rest := by
    simp [crlf]
  rw [read_int, hshape]
  rw [readLineModel_canonical]
  · have hline : (c :: (natToDecimal n ++ [13])) ++ [10] = c :: (natToDecimal n ++ crlf) := by
      simp [crlf]
    rw [hline]
    dsimp only
    rw [if_neg (by simp)]
    rw [stripPref_cons]
    dsimp only
    rw [stripSuf_append]
    dsimp only
    rw [parseUsize_natToDecimal n (le_trans hmax hbig)]
    dsimp only
    rw [if_neg (by omega)]
    have hl3 : (c :: (natToDecimal n ++ crlf)).length = (natToDecimal n).length + 3 := by
      rw [List.length_cons, List.length_append]
      rfl
    rw [hl3]
  · intro b hb
    rw [List.mem_cons] at hb
    cases hb with
    | inl h => omega
    | inr h =>
      rw [List.mem_append] at h
      cases h with
      | inl h2 => exact natToDecimal_lt128 n b h2
      | inr h2 =>
        simp at h2
        omega
  · intro h
    rw [List.mem_cons] at h
    cases h with
    | inl h2 => exact hc10 h2.symm
    | inr h2 =>
      rw [List.mem_append] at h2
      cases h2 with
      | inl h3 => exact natToDecimal_not10 n h3
      | inr h3 => simp at h3
  · rw [List.length_cons, List.length_append]
    have : ([13] : List Nat).length = 1 := rfl
    omega

theorem ends_with_append_crlf (s : List Nat) : ends_with (s ++ crlf) crlf = true := by
  have hc : crlf.length = 2 := rfl
  rw [ends_with]
  rw [if_neg (by rw [List.length_append, hc]; omega)]
  have hsub : (s ++ crlf).length - crlf.length = s.length := by
    rw [List.length_append, hc]
    omega
  rw [hsub, List.drop_left]
  simp

theorem read_binary_string_body_canonical (s rest : List Nat) :
    read_binary_string_body (s ++ crlf ++ rest) s.length true
      = some (s, s.length + 2, rest) := by
  rw [read_binary_string_body]
  dsimp only [cond]
  have hshape : s ++ crlf ++ rest = (s ++ crlf) ++ rest := by simp
  rw [hshape]
  have hc : crlf.length = 2 := rfl
  rw [if_neg (by rw [List.length_append, List.length_append, hc]; omega)]
  have hsc : (s ++ crlf).length = s.length + 2 := by
    rw [List.length_append, hc]
  have htake : ((s ++ crlf) ++ rest).take (s.length + 2) = s ++ crlf := by
    rw [← hsc, List.take_left]
  have hdrop : ((s ++ crlf) ++ rest).drop (s.length + 2) = rest := by
    rw [← hsc, List.drop_left]
  rw [htake, hdrop]
  rw [if_pos (ends_with_append_crlf s)]
  have hs2 : (s ++ crlf).length - 2 = s.length := by
    rw [hsc]
    omega
  rw [hs2, List.take_left]

theorem read_binary_string_with_size_canonical (s rest : List Nat) (hs : s.length ≤ 300) :
    read_binary_string_with_size (write_binary_string_bytes s true ++ rest) true
      = some (s, (write_binary_string_bytes s true).length, rest) := by
  rw [read_binary_string_with_size, read_binary_string_size]
  have hshape : write_binary_string_bytes s true ++ rest
      = [36] ++ natToDecimal s.length ++ crlf ++ (s ++ crlf ++ rest) := by
    simp [write_binary_string_bytes]
  rw [hshape]
  rw [read_int_canonical 36 s.length 300 (s ++ crlf ++ rest) (by omega) (by omega)
    hs (by rw [usizeMax]; omega)
    (by
      have := natToDecimal_len_le s.length 3 (by omega) (by omega)
      omega)]
  dsimp only
  rw [read_binary_string_body_canonical]
  have hwl : (write_binary_string_bytes s true).length
      = (natToDecimal s.length).length + 3 + (s.length + 2) := by
    rw [write_binary_string_bytes]
    simp [crlf]
    omega
  rw [hwl]

theorem readParams_canonical :
    ∀ (argv : List (List Nat)) (rest : List Nat), (∀ s ∈ argv, s.length ≤ 300) →
      readParams argv.length
          ((argv.map (fun s => write_binary_string_bytes s true)).flatten ++ rest)
        = some (argv, ((argv.map (fun s => write_binary_string_bytes s true)).flatten).length, rest) := by
  intro argv
  induction argv with
  | nil =>
    intro rest _
    simp [readParams]
  | cons s argv ih =>
    intro rest hval
    have hs : s.length ≤ 300 := hval s (List.mem_cons_self s argv)
    rw [List.length_cons, readParams]
    have hshape : ((s :: argv).map (fun s => write_binary_string_bytes s true)).flatten ++ rest
        = write_binary_string_bytes s true
          ++ ((argv.map (fun s => write_binary_string_bytes s true)).flatten ++ rest) := by
      simp
    rw [hshape]
    rw [read_binary_string_with_size_canonical s _ hs]
    dsimp only
    rw [ih rest (fun x hx => hval x (List.mem_cons_of_mem s hx))]
    have hjl : (((s :: argv).map (fun s => write_binary_string_bytes s true)).flatten).length
        = (write_binary_string_bytes s true).length
          + ((argv.map (fun s => write_binary_string_bytes s true)).flatten).length := by
      simp
    rw [hjl]

/-- Claim C2: for every argv of at most 100 bulk strings, each of at most 300
bytes, decoding the bytes produced by encoding argv as an array of bulk
strings yields argv again, consumes the whole input, and the byte count
reported by the decoder equals the length of the encoded bytes. -/
theorem claim_c2_codec_roundtrip (argv : List (List Nat))
    (hlen : argv.length ≤ 100) (hval : ∀ s ∈ argv, s.length ≤ 300) :
    read_command (write_array_of_strings_bytes argv)
      = some (argv, (write_array_of_strings_bytes argv).length, []) := by
  rw [read_command, read_command_array_size]
  have hshape : write_array_of_strings_bytes argv
      = [42] ++ natToDecimal argv.length ++ crlf
          ++ ((argv.map (fun s => write_binary_string_bytes s true)).flatten ++ []) := by
    simp [write_array_of_strings_bytes]
  rw [hshape]
  rw [read_int_canonical 42 argv.length 100 _ (by omega) (by omega)
    hlen (by rw [usizeMax]; omega)
    (by
      have := natToDecimal_len_le argv.length 3 (by omega) (by omega)
      omega)]
  dsimp only
  rw [readParams_canonical argv [] hval]
  have htot : ([42] ++ natToDecimal argv.length ++ crlf
        ++ ((argv.map (fun s => write_binary_string_bytes s true)).flatten ++ [])).length
      = (natToDecimal argv.length).length + 3
        + ((argv.map (fun s => write_binary_string_bytes s true)).flatten).length := by
    simp [crlf]
    omega
  rw [htot]

/-- Witness for Claim C2 at the concrete argv `[PING]` (bulk string of the four
bytes 80,73,78,71): the encoding is 14 bytes and decodes back to the argv. -/
theorem claim_c2_codec_roundtrip_witness :
    read_command (write_array_of_strings_bytes [[80, 73, 78, 71]])
      = some ([[80, 73, 78, 71]], 14, []) := by
  rw [claim_c2_codec_roundtrip [[80, 73, 78, 71]] (by decide) (by decide)]
  decide

/-! ## Commands and handler errors (command.rs, handlers.rs) -/

/-- Model of `Command` (command.rs): the on-wire byte size reported by the
decoder, the ASCII-uppercased name (kept as bytes), and the raw argv. -/
structure Command where
  byte_size : Nat
  name : List Nat
  raw : List (List Nat)
deriving DecidableEq

/-- Model of `ArgsError` (handlers.rs). -/
inductive ArgsError where
  | Generic
  | CanNotIncrementThisValue
deriving DecidableEq

/-- Model of `HandleError` (handlers.rs): recoverable invalid arguments versus
a fatal failed response. -/
inductive HandleError where
  | InvalidArgs (e : ArgsError)
  | ResponseFailed
deriving DecidableEq

instance {e a : Type} [DecidableEq e] [DecidableEq a] : DecidableEq (Except e a) := fun x y =>
  match x, y with
  | Except.error u, Except.error v =>
    if h : u = v then isTrue (by rw [h]) else isFalse (fun hc => by injection hc with h2; exact h h2)
  | Except.error _, Except.ok _ => isFalse (fun hc => Except.noConfusion hc)
  | Except.ok _, Except.error _ => isFalse (fun hc => Except.noConfusion hc)
  | Except.ok u, Except.ok v =>
    if h : u = v then isTrue (by rw [h]) else isFalse (fun hc => by injection hc with h2; exact h h2)

/-- Model of `ArgsError::get_message` (handlers.rs). -/
def ArgsError.get_message : ArgsError → String
  | ArgsError.Generic => "Invalid args"
  | ArgsError.CanNotIncrementThisValue => "ERR value is not an integer or out of range"

/-- Model of `INVALID_ARGS_DEFAULT` (handlers.rs). -/
def INVALID_ARGS_DEFAULT : HandleError := HandleError.InvalidArgs ArgsError.Generic

/-! ## Replication sender (server.rs) and `Connection::replicate` (connection.rs)

The broadcast channel is modelled as the list of commands published so far;
`master_written_offset` is a `Nat` (the source uses `usize`, and offsets are
sums of decoder-reported byte counts). -/

/-- Model of `Replication` (server.rs): the broadcast sender (as the published
history) and the primary-side written offset. -/
structure Replication where
  sent : List Command
  master_written_offset : Nat
deriving DecidableEq

/-- Model of `Replication::send`: add `byte_size` to `master_written_offset`,
publish on the channel, and return the post-increment offset. -/
def Replication.send (r : Replication) (command : Command) : Replication × Nat :=
  let r2 : Replication :=
    { sent := r.sent ++ [command]
      master_written_offset := r.master_written_offset + command.byte_size }
  (r2, r2.master_written_offset)

/-- Iterated `Replication.send` over a sequence of published commands. -/
def Replication.sendAll (r : Replication) (commands : List Command) : Replication :=
  commands.foldl (fun acc c => (acc.send c).1) r

set_option linter.unusedVariables false in
/-- Model of `Connection::replicate` (connection.rs): publish the command under
the replication write lock and store the returned offset into the connection's
`replicated_offset` cell (the previous cell value is overwritten, hence
unused).  Returns the new cell value and the new sender state. -/
def Connection.replicate (replicated_offset : Nat) (repl : Replication) (command : Command) :
    Nat × Replication :=
  let offset_value := (repl.send command).2
  (offset_value, (repl.send command).1)

theorem sendAll_append (r : Replication) (cs1 cs2 : List Command) :
    r.sendAll (cs1 ++ cs2) = (r.sendAll cs1).sendAll cs2 := by
  rw [Replication.sendAll, Replication.sendAll, Replication.sendAll, List.foldl_append]

theorem sendAll_offset_le (cs : List Command) :
    ∀ (r : Replication), r.master_written_offset ≤ (r.sendAll cs).master_written_offset := by
  induction cs with
  | nil =>
    intro r
    rw [Replication.sendAll]
    exact Nat.le_refl _
  | cons c cs ih =>
    intro r
    rw [Replication.sendAll, List.foldl_cons]
    have h1 : r.master_written_offset ≤ ((r.send c).1).master_written_offset := by
      rw [Replication.send]
      exact Nat.le_add_right _ _
    exact le_trans h1 (ih ((r.send c).1))

/-- Claim C1: along any sequence of publishes on the primary, the sender's
`master_written_offset` is monotone non-decreasing; each publish increases it
by exactly the `byte_size` of the published command; `send` returns the
post-increment offset; and `Connection::replicate` stores that returned value
into the connection's `replicated_offset`. -/
theorem claim_c1_master_offset (r : Replication) (cs1 cs2 : List Command) (c : Command)
    (off : Nat) :
    ((r.sendAll cs1).send c).1.master_written_offset
        = (r.sendAll cs1).master_written_offset + c.byte_size
      ∧ (r.sendAll cs1).master_written_offset
          ≤ (r.sendAll (cs1 ++ cs2)).master_written_offset
      ∧ ((r.sendAll cs1).send c).2 = ((r.sendAll cs1).send c).1.master_written_offset
      ∧ Connection.replicate off (r.sendAll cs1) c
          = (((r.sendAll cs1).send c).2, ((r.sendAll cs1).send c).1) := by
  refine ⟨rfl, ?_, rfl, rfl⟩
  rw [sendAll_append]
  exact sendAll_offset_le cs2 (r.sendAll cs1)

/-! ## Replica-side master loop (connection.rs `handle_master`) -/

/-- One iteration of the replica's master-connection loop (connection.rs
`handle_master`), after a command of byte size `command_size` has been read
and handled with result `res`: on error the offset is left unchanged and the
loop continues with the next read; on success `slave_read_offset` is advanced
by `command_size` and the loop also continues.  The boolean records that the
connection keeps reading (the `continue` in both branches). -/
def handle_master_step (slave_read_offset command_size : Nat) (res : Except HandleError Unit) :
    Nat × Bool :=
  match res with
  | Except.error _ => (slave_read_offset, true)
  | Except.ok _ => (slave_read_offset + command_size, true)

/-- The master-connection loop folded over a trace of (byte size, handler
result) events. -/
def handle_master_loop (slave_read_offset : Nat)
    (events : List (Nat × Except HandleError Unit)) : Nat :=
  events.foldl (fun off e => (handle_master_step off e.1 e.2).1) slave_read_offset

/-- Whether an event of the master loop applied successfully. -/
def isOkEvent (e : Nat × Except HandleError Unit) : Bool :=
  match e.2 with
  | Except.ok _ => true
  | Except.error _ => false

/-- Claim C3: in the replica's master loop, a failing handler leaves
`slave_read_offset` unchanged and the connection continues reading; a
successful handler advances it by the command's byte size; consequently over
any trace the offset grows by exactly the sum of the byte sizes of the
successfully applied commands. -/
theorem claim_c3_slave_offset_on_error (off sz : Nat) (e : HandleError)
    (events : List (Nat × Except HandleError Unit)) :
    handle_master_step off sz (Except.error e) = (off, true)
      ∧ handle_master_step off sz (Except.ok ()) = (off + sz, true)
      ∧ handle_master_loop off events
          = off + (((events.filter isOkEvent).map (fun e => e.1)).sum) := by
  refine ⟨rfl, rfl, ?_⟩
  induction events generalizing off with
  | nil => rw [handle_master_loop]; rfl
  | cons ev evs ih =>
    obtain ⟨sz1, res⟩ := ev
    cases res with
    | ok u =>
      cases u
      have hloop : handle_master_loop off ((sz1, Except.ok ()) :: evs)
          = handle_master_loop (off + sz1) evs := rfl
      have hfilter : ((sz1, Except.ok ()) :: evs).filter isOkEvent
          = (sz1, Except.ok ()) :: evs.filter isOkEvent := by
        rw [List.filter_cons,
          if_pos (show isOkEvent (sz1, Except.ok ()) = true from rfl)]
      rw [hloop, ih (off + sz1), hfilter, List.map_cons, List.sum_cons]
      omega
    | error err =>
      have hloop : handle_master_loop off ((sz1, Except.error err) :: evs)
          = handle_master_loop off evs := rfl
      have hfilter : ((sz1, Except.error err) :: evs).filter isOkEvent
          = evs.filter isOkEvent := by
        rw [List.filter_cons, if_neg (fun hc => Bool.noConfusion hc)]
      rw [hloop, ih off, hfilter]

/-! ## PSYNC handling on the primary (handlers.rs `psync`) -/

/-- Model of handlers.rs `split_arg`. -/
def split_arg (args : List (List Nat)) : Except HandleError (List Nat × List (List Nat)) :=
  match args with
  | [] => Except.error INVALID_ARGS_DEFAULT
  | value :: rest => Except.ok (value, rest)

/-- Model of handlers.rs `split_and_assert_value`. -/
def split_and_assert_value (args : List (List Nat)) (expected : List Nat) :
    Except HandleError (List (List Nat)) :=
  match split_arg args with
  | Except.error e => Except.error e
  | Except.ok (value, rest) =>
    if value = expected then Except.ok rest else Except.error INVALID_ARGS_DEFAULT

/-- The externally visible actions of handlers.rs `psync`, in program order.
Payloads (the FULLRESYNC line and the snapshot bytes) are elided: the claim
under check concerns only the order of the actions. -/
inductive PsyncAction where
  | writeFullresync
  | writeRdbFile
  | subscribe
deriving DecidableEq

/-- Model of handlers.rs `psync` as its ordered action trace: after asserting
the two arguments are the bytes of the question mark and of minus-one, the
handler writes the FULLRESYNC simple string, then writes the snapshot bulk
(without trailing delimiter), and only then subscribes to the replication
sender.  An IO failure aborts the sequence after the failing write, which can
only truncate the trace, never reorder it. -/
def psync (args : List (List Nat)) : Except HandleError (List PsyncAction) :=
  match split_and_assert_value args [63] with
  | Except.error e => Except.error e
  | Except.ok args2 =>
    match split_and_assert_value args2 [45, 49] with
    | Except.error e => Except.error e
    | Except.ok _ =>
      Except.ok [PsyncAction.writeFullresync, PsyncAction.writeRdbFile, PsyncAction.subscribe]

/-- Position of the subscription in a psync action trace. -/
def subscribeIdx (t : List PsyncAction) : Nat :=
  t.findIdx (fun a => match a with | PsyncAction.subscribe => true | _ => false)

/-- Position of the FULLRESYNC write in a psync action trace. -/
def fullresyncIdx (t : List PsyncAction) : Nat :=
  t.findIdx (fun a => match a with | PsyncAction.writeFullresync => true | _ => false)

/-- Position of the snapshot-bulk write in a psync action trace. -/
def rdbIdx (t : List PsyncAction) : Nat :=
  t.findIdx (fun a => match a with | PsyncAction.writeRdbFile => true | _ => false)

/-- Counterexample to Claim C4: on the valid PSYNC arguments (`?`, `-1`) the
handler's action trace places the subscription strictly after both reply
writes, not before them as the claim states. -/
theorem claim_c4_counterexample :
    psync [[63], [45, 49]]
        = Except.ok [PsyncAction.writeFullresync, PsyncAction.writeRdbFile, PsyncAction.subscribe]
      ∧ subscribeIdx
            [PsyncAction.writeFullresync, PsyncAction.writeRdbFile, PsyncAction.subscribe] = 2
      ∧ fullresyncIdx
            [PsyncAction.writeFullresync, PsyncAction.writeRdbFile, PsyncAction.subscribe] = 0
      ∧ rdbIdx
            [PsyncAction.writeFullresync, PsyncAction.writeRdbFile, PsyncAction.subscribe] = 1
      ∧ ¬ (subscribeIdx
              [PsyncAction.writeFullresync, PsyncAction.writeRdbFile, PsyncAction.subscribe]
            < fullresyncIdx
              [PsyncAction.writeFullresync, PsyncAction.writeRdbFile, PsyncAction.subscribe]) := by
  refine ⟨rfl, by decide, by decide, by decide, by decide⟩

/-- Claim C4 (amended): in the primary's handling of PSYNC, the subscription to
the replication bus is created only after the FULLRESYNC line and the snapshot
bulk have been written to the peer: every successful trace is exactly
write-FULLRESYNC, write-snapshot, subscribe. -/
theorem claim_c4_subscribe_last (args : List (List Nat)) (t : List PsyncAction)
    (h : psync args = Except.ok t) :
    t = [PsyncAction.writeFullresync, PsyncAction.writeRdbFile, PsyncAction.subscribe]
      ∧ fullresyncIdx t < subscribeIdx t ∧ rdbIdx t < subscribeIdx t := by
  rw [psync] at h
  cases hs1 : split_and_assert_value args [63] with
  | error e =>
    rw [hs1] at h
    exact absurd h (fun hc => Except.noConfusion hc)
  | ok args2 =>
    rw [hs1] at h
    dsimp only at h
    cases hs2 : split_and_assert_value args2 [45, 49] with
    | error e =>
      rw [hs2] at h
      exact absurd h (fun hc => Except.noConfusion hc)
    | ok args3 =>
      rw [hs2] at h
      dsimp only at h
      injection h with h2
      subst h2
      exact ⟨rfl, by decide, by decide⟩

/-- Witness for the amended Claim C4 at the valid PSYNC arguments. -/
theorem claim_c4_subscribe_last_witness :
    [PsyncAction.writeFullresync, PsyncAction.writeRdbFile, PsyncAction.subscribe]
        = [PsyncAction.writeFullresync, PsyncAction.writeRdbFile, PsyncAction.subscribe]
      ∧ fullresyncIdx
            [PsyncAction.writeFullresync, PsyncAction.writeRdbFile, PsyncAction.subscribe]
          < subscribeIdx
            [PsyncAction.writeFullresync, PsyncAction.writeRdbFile, PsyncAction.subscribe]
      ∧ rdbIdx [PsyncAction.writeFullresync, PsyncAction.writeRdbFile, PsyncAction.subscribe]
          < subscribeIdx
            [PsyncAction.writeFullresync, PsyncAction.writeRdbFile, PsyncAction.subscribe] :=
  claim_c4_subscribe_last [[63], [45, 49]]
    [PsyncAction.writeFullresync, PsyncAction.writeRdbFile, PsyncAction.subscribe] rfl

/-! ## Replica registry (server.rs `SlaveState`) and WAIT (handlers.rs `wait`) -/

/-- Lookup in the replica registry map (`HashMap<usize, usize>` modelled as an
association list with unique ids). -/
def lookupId : List (Nat × Nat) → Nat → Option Nat
  | [], _ => none
  | (k, v) :: rest, id => if k = id then some v else lookupId rest id

/-- Insert/replace in the replica registry map. -/
def insertId : List (Nat × Nat) → Nat → Nat → List (Nat × Nat)
  | [], id, off => [(id, off)]
  | (k, v) :: rest, id, off =>
    if k = id then (id, off) :: rest else (k, v) :: insertId rest id off

/-- Model of `SlaveState::check_acknowledged` (server.rs): the number of
registered replicas whose stored offset is at least the target, and the number
of the rest. -/
def SlaveState.check_acknowledged (offsets : List (Nat × Nat)) (offset : Nat) : Nat × Nat :=
  let count_acknowledged := (offsets.filter (fun p => decide (offset ≤ p.2))).length
  (count_acknowledged, offsets.length - count_acknowledged)

/-- Model of `SlaveState::update_offset` (server.rs): `none` models the
source's `expect` panic on an unregistered id; a stored offset larger than the
reported one rejects the update and leaves the registry unchanged; otherwise
the new offset is stored and the update is accepted. -/
def SlaveState.update_offset (offsets : List (Nat × Nat)) (id offset : Nat) :
    Option (List (Nat × Nat) × Bool) :=
  match lookupId offsets id with
  | none => none
  | some old_value =>
    if offset < old_value then some (offsets, false)
    else some (insertId offsets id offset, true)

/-- The synthetic `REPLCONF GETACK *` command built by handlers.rs `wait`,
with its hard-coded byte size 37. -/
def replconfGetAckStar : Command :=
  { byte_size := 37
    name := [82, 69, 80, 76, 67, 79, 78, 70]
    raw := [[82, 69, 80, 76, 67, 79, 78, 70], [71, 69, 84, 65, 67, 75], [42]] }

/-- Reply bytes of resp.rs `write_int`. -/
def write_int_bytes (value : Int) : List Nat := [58] ++ intToDecimal value ++ crlf

/-- Outcome of a completed WAIT: the commands published to the bus, the
duration handed to `sleep` (in milliseconds), and the reply bytes. -/
structure WaitOutcome where
  published : List Command
  slept_ms : Nat
  reply : List Nat
deriving DecidableEq

/-- Model of handlers.rs `wait` after argument parsing and the role check, on
a primary-external connection: `offsets` is the replica registry observed
before the sleep and `offsetsAfterSleep` the registry observed when the
handler re-reads it after sleeping (other tasks may have acknowledged in
between); `replicated_offset` is the connection's replicated-offset cell
(`need_offset`).  A timeout above 600000 is rejected as invalid arguments;
when some replicas are behind and fewer than `need_count` have acknowledged,
the handler publishes `REPLCONF GETACK *`, sleeps the full timeout, recomputes
the count, and replies with it as a wire integer.  Otherwise it replies
immediately. -/
def wait (need_count timeout : Nat) (offsets offsetsAfterSleep : List (Nat × Nat))
    (replicated_offset : Nat) : Except HandleError WaitOutcome :=
  if 600000 < timeout then Except.error INVALID_ARGS_DEFAULT
  else
    let need_offset := replicated_offset
    let p := SlaveState.check_acknowledged offsets need_offset
    if 0 < p.2 ∧ p.1 < need_count then
      Except.ok
        { published := [replconfGetAckStar]
          slept_ms := timeout
          reply := write_int_bytes
            ((SlaveState.check_acknowledged offsetsAfterSleep need_offset).1 : Int) }
    else
      Except.ok { published := [], slept_ms := 0, reply := write_int_bytes (p.1 : Int) }

/-- Counterexample to Claim C5: a WAIT whose timeout is 600001 milliseconds is
refused with the invalid-arguments error — no GETACK is published and no
integer is written — whereas the claim states such timeouts are capped at
600000 and served. -/
theorem claim_c5_counterexample :
    wait 1 600001 [(0, 0)] [(0, 0)] 5 = Except.error INVALID_ARGS_DEFAULT
      ∧ ¬ ∃ out, wait 1 600001 [(0, 0)] [(0, 0)] 5 = Except.ok out := by
  refine ⟨rfl, ?_⟩
  intro hex
  obtain ⟨out, hout⟩ := hex
  rw [show wait 1 600001 [(0, 0)] [(0, 0)] 5 = Except.error INVALID_ARGS_DEFAULT from rfl]
    at hout
  exact Except.noConfusion hout

/-- Claim C5 (amended): timeouts above 600000 ms are refused with the
invalid-arguments error, not capped; for a timeout within the cap, when some
replicas are behind the connection's replicated offset and fewer than
`need_count` have acknowledged it, the handler publishes `REPLCONF GETACK *`
(raw argv of exactly those three bulk strings, byte size 37), sleeps the
requested timeout (hence at most 600000 ms), recomputes the acknowledgement
count from the registry observed after the sleep, and replies with that count
as a wire integer. -/
theorem claim_c5_wait_behaviour (need_count timeout : Nat)
    (offsets offsetsAfter : List (Nat × Nat)) (connOff : Nat) :
    (600000 < timeout →
        wait need_count timeout offsets offsetsAfter connOff
          = Except.error INVALID_ARGS_DEFAULT)
      ∧ (timeout ≤ 600000 →
          0 < (SlaveState.check_acknowledged offsets connOff).2 →
          (SlaveState.check_acknowledged offsets connOff).1 < need_count →
          wait need_count timeout offsets offsetsAfter connOff
            = Except.ok
                { published := [replconfGetAckStar]
                  slept_ms := timeout
                  reply := write_int_bytes
                    ((SlaveState.check_acknowledged offsetsAfter connOff).1 : Int) })
      ∧ replconfGetAckStar.raw = [[82, 69, 80, 76, 67, 79, 78, 70], [71, 69, 84, 65, 67, 75], [42]]
      ∧ replconfGetAckStar.byte_size = 37 := by
  refine ⟨?_, ?_, rfl, rfl⟩
  · intro h
    rw [wait, if_pos h]
  · intro h1 h2 h3
    rw [wait, if_neg (by omega)]
    dsimp only
    rw [if_pos ⟨h2, h3⟩]

/-- Witness for the amended Claim C5: one replica registered at offset 0,
connection offset 5, need 1, timeout 100 ms; after the sleep the replica has
acknowledged offset 50, so the reply is the wire integer 1. -/
theorem claim_c5_wait_behaviour_witness :
    wait 1 100 [(0, 0)] [(0, 50)] 5
      = Except.ok
          { published := [replconfGetAckStar], slept_ms := 100,
            reply := write_int_bytes (1 : Int) } := by
  have h := (claim_c5_wait_behaviour 1 100 [(0, 0)] [(0, 50)] 5).2.1
    (by decide) (by decide) (by decide)
  rw [h]
  rfl

/-! ## REPLCONF ACK on the primary (handlers.rs `repl_conf_ack`,
connection.rs `update_acknowledged_offset`, handlers.rs
`handle_command_ignore_invalid`) -/

/-- Model of handlers.rs `parse_value::<usize>`: UTF-8 check then `parse`. -/
def parse_value_usize (value : List Nat) : Option Nat :=
  if isValidUtf8 value then parseUsize value else none

/-- Model of handlers.rs `repl_conf_ack` composed with connection.rs
`update_acknowledged_offset` for a connection already in the
attached-replica kind with registry id `slave_id`: parse the reported offset,
update the registry, and turn a rejected update into the invalid-arguments
error.  Returns the handler result and the registry afterwards; `none` models
the registry panic on an unregistered id. -/
def repl_conf_ack (offsets : List (Nat × Nat)) (slave_id : Nat) (args : List (List Nat)) :
    Option (Except HandleError Unit × List (Nat × Nat)) :=
  match split_arg args with
  | Except.error e => some (Except.error e, offsets)
  | Except.ok (value, _) =>
    match parse_value_usize value with
    | none => some (Except.error INVALID_ARGS_DEFAULT, offsets)
    | some offset =>
      match SlaveState.update_offset offsets slave_id offset with
      | none => none
      | some (offsets2, is_correct) =>
        if is_correct then some (Except.ok (), offsets2)
        else some (Except.error INVALID_ARGS_DEFAULT, offsets2)

/-- Model of handlers.rs `handle_command_ignore_invalid` on the handler's
result: invalid-arguments errors are swallowed (`some ()`, the read loop
continues); only a failed response terminates the connection (`none`, which
the callers propagate with the question-mark operator). -/
def handle_command_ignore_invalid (res : Except HandleError Unit) : Option Unit :=
  match res with
  | Except.ok _ => some ()
  | Except.error (HandleError.InvalidArgs _) => some ()
  | Except.error HandleError.ResponseFailed => none

/-- Counterexample to Claim C6: a replica registered at offset 5 reports
acknowledged offset 3.  The update is rejected and the stored offset is
unchanged, but the resulting invalid-arguments error is swallowed by
`handle_command_ignore_invalid`, so the attached-replica connection continues
reading — it does not terminate as the claim states. -/
theorem claim_c6_counterexample :
    SlaveState.update_offset [(7, 5)] 7 3 = some ([(7, 5)], false)
      ∧ repl_conf_ack [(7, 5)] 7 [[51]] = some (Except.error INVALID_ARGS_DEFAULT, [(7, 5)])
      ∧ handle_command_ignore_invalid (Except.error INVALID_ARGS_DEFAULT) = some ()
      ∧ handle_command_ignore_invalid (Except.error INVALID_ARGS_DEFAULT) ≠ none := by
  refine ⟨rfl, rfl, rfl, fun hc => Option.noConfusion hc⟩

/-- Claim C6 (amended): when an attached-replica connection reports an offset
strictly smaller than the one stored for it, `update_offset` rejects the
update leaving the registry unchanged, and `repl_conf_ack` turns the rejection
into an invalid-arguments error — which `handle_command_ignore_invalid`
swallows, so the connection continues reading rather than terminating. -/
theorem claim_c6_reject_continues (offsets : List (Nat × Nat)) (id old n : Nat)
    (rest : List (List Nat)) (hlook : lookupId offsets id = some old) (hlt : n < old)
    (hn : n ≤ usizeMax) :
    SlaveState.update_offset offsets id n = some (offsets, false)
      ∧ repl_conf_ack offsets id (natToDecimal n :: rest)
          = some (Except.error INVALID_ARGS_DEFAULT, offsets)
      ∧ handle_command_ignore_invalid (Except.error INVALID_ARGS_DEFAULT) = some () := by
  have hupd : SlaveState.update_offset offsets id n = some (offsets, false) := by
    rw [SlaveState.update_offset, hlook]
    dsimp only
    rw [if_pos hlt]
  refine ⟨hupd, ?_, rfl⟩
  rw [repl_conf_ack, split_arg]
  dsimp only
  have hparse : parse_value_usize (natToDecimal n) = some n := by
    rw [parse_value_usize,
      isValidUtf8_ascii (natToDecimal n) (natToDecimal_lt128 n),
      if_pos rfl, parseUsize_natToDecimal n hn]
  rw [hparse]
  dsimp only
  rw [hupd]
  rfl

/-- Witness for the amended Claim C6: registry `[(7, 5)]`, id 7, reported
offset 3. -/
theorem claim_c6_reject_continues_witness :
    SlaveState.update_offset [(7, 5)] 7 3 = some ([(7, 5)], false)
      ∧ repl_conf_ack [(7, 5)] 7 [natToDecimal 3]
          = some (Except.error INVALID_ARGS_DEFAULT, [(7, 5)])
      ∧ handle_command_ignore_invalid (Except.error INVALID_ARGS_DEFAULT) = some () :=
  claim_c6_reject_continues [(7, 5)] 7 5 3 [] rfl (by decide) (by decide)

/-! ## Keyspace (storage.rs)

The `HashMap` is modelled as an association list with unique keys; lookup,
insert and remove are key-based.  `now_ts()` (wall-clock milliseconds) is
passed explicitly. -/

/-- Model of `SimpleValue` (storage.rs). -/
inductive SimpleValue where
  | String (data : List Nat)
  | Int (value : Int)
deriving DecidableEq

/-- Model of `StorageItemSimple` (storage.rs); the expiry is an absolute
millisecond timestamp. -/
structure StorageItemSimple where
  value : SimpleValue
  expires_at : Option Nat
deriving DecidableEq

/-- Model of `StreamEntry` (storage.rs); the field map is an association
list. -/
structure StreamEntry where
  id : List Nat
  data : List (List Nat × List Nat)
deriving DecidableEq

/-- Model of `StorageItem` (storage.rs). -/
inductive StorageItem where
  | Simple (item : StorageItemSimple)
  | Stream (entries : List StreamEntry)
deriving DecidableEq

/-- Model of `StorageInner` (storage.rs). -/
abbrev StorageInner : Type := List (List Nat × StorageItem)

/-- `HashMap::get` on the modelled map. -/
def lookupKey : StorageInner → List Nat → Option StorageItem
  | [], _ => none
  | (k, v) :: rest, key => if k = key then some v else lookupKey rest key

/-- `HashMap::insert` on the modelled map: replace in place or append. -/
def insertKey : StorageInner → List Nat → StorageItem → StorageInner
  | [], key, v => [(key, v)]
  | (k, w) :: rest, key, v =>
    if k = key then (key, v) :: rest else (k, w) :: insertKey rest key v

/-- `HashMap::remove` on the modelled map. -/
def removeKey : StorageInner → List Nat → StorageInner
  | [], _ => []
  | (k, w) :: rest, key => if k = key then rest else (k, w) :: removeKey rest key

/-- Model of storage.rs `get_int_value`: `str::from_utf8` then
`parse::<i64>`. -/
def get_int_value (value : List Nat) : Option Int :=
  if isValidUtf8 value then parseI64 value else none

/-- Model of `StorageItemSimple::from_data` (storage.rs): bytes that parse as
a signed 64-bit decimal integer are stored as the `Int` variant, all other
bytes as the `String` variant. -/
def StorageItemSimple.from_data (value : List Nat) (expires_at : Option Nat) :
    StorageItemSimple :=
  match get_int_value value with
  | some x => { value := SimpleValue.Int x, expires_at := expires_at }
  | none => { value := SimpleValue.String value, expires_at := expires_at }

/-- Model of `StorageItemSimple::is_expired` (storage.rs) at the given
wall-clock time. -/
def StorageItemSimple.is_expired (item : StorageItemSimple) (now_ts : Nat) : Bool :=
  match item.expires_at with
  | none => false
  | some expires_at => decide (expires_at < now_ts)

/-- Model of `Storage::delete_expired` (storage.rs). -/
def Storage.delete_expired (inner : StorageInner) (now_ts : Nat) (key : List Nat) :
    StorageInner :=
  match lookupKey inner key with
  | some (StorageItem.Simple item) =>
    if item.is_expired now_ts then removeKey inner key else inner
  | _ => inner

/-- Model of `Storage::get_simple` (storage.rs): a missing key, a stream, or
an expired string reads as `none`; an expired string is additionally removed
(via `delete_expired`).  Returns the read value and the map afterwards. -/
def Storage.get_simple (inner : StorageInner) (now_ts : Nat) (key : List Nat) :
    Option SimpleValue × StorageInner :=
  match lookupKey inner key with
  | some (StorageItem.Simple item) =>
    if item.is_expired now_ts then (none, Storage.delete_expired inner now_ts key)
    else (some item.value, inner)
  | _ => (none, inner)

/-- Model of `Storage::keys` (storage.rs): a snapshot of every key present in
the map, with no expiry filtering. -/
def Storage.keys (inner : StorageInner) : List (List Nat) := inner.map (fun p => p.1)

/-- Model of `Storage::set_string` (storage.rs). -/
def Storage.set_string (inner : StorageInner) (key : List Nat) (item : StorageItemSimple) :
    StorageInner :=
  insertKey inner key (StorageItem.Simple item)

/-- Two's-complement wrap-around into the `i64` range, the release-profile
semantics of the source's `*value += 1`. -/
def wrapI64 (z : Int) : Int := (z + 2 ^ 63) % 2 ^ 64 - 2 ^ 63

/-- Model of `Storage::increment` (storage.rs): `entry(key).or_insert_with`
creates `Int 0` for an absent key; an `Int` value is incremented in place
(modelled by re-inserting the incremented item); a string or a stream value
yields `none` (the mismatch) and leaves the map unchanged. -/
def Storage.increment (inner : StorageInner) (key : List Nat) :
    Option (StorageInner × Int) :=
  let entry :=
    match lookupKey inner key with
    | some it => it
    | none => StorageItem.Simple { value := SimpleValue.Int 0, expires_at := none }
  match entry with
  | StorageItem.Simple s =>
    match s.value with
    | SimpleValue.Int x =>
      some (insertKey inner key
        (StorageItem.Simple { value := SimpleValue.Int (wrapI64 (x + 1)),
                              expires_at := s.expires_at }),
        wrapI64 (x + 1))
    | _ => none
  | _ => none

/-- Model of handlers.rs `do_incr`: on a mismatch, return the
can-not-increment invalid-arguments error and publish nothing to the
replication bus; on success, publish the command (under the still-held write
guard) and return the new value. -/
def do_incr (inner : StorageInner) (key : List Nat) (repl : Replication) (command : Command) :
    Except HandleError (StorageInner × Int) × Replication :=
  match Storage.increment inner key with
  | none => (Except.error (HandleError.InvalidArgs ArgsError.CanNotIncrementThisValue), repl)
  | some (inner2, value) => (Except.ok (inner2, value), (repl.send command).1)

/-- Model of handlers.rs `incr` (past the role check and outside a
transaction), paired with the bytes the handler writes to the client: a
mismatch from `do_incr` is propagated by the question-mark operator, so the
handler writes nothing at all; on success the new value is written as a wire
integer (and no reply is written when the server is a replica).  In the read
loops the propagated invalid-arguments error is then swallowed by
`handle_command_ignore_invalid` with only a stderr log, so no reply bytes ever
reach the client for a mismatched increment (`ArgsError::get_message` has no
caller in the sources). -/
def incr_handler (inner : StorageInner) (key : List Nat) (repl : Replication)
    (command : Command) (is_slave : Bool) :
    Except HandleError (StorageInner × Int) × Replication × List Nat :=
  match do_incr inner key repl command with
  | (Except.error e, repl2) => (Except.error e, repl2, [])
  | (Except.ok (inner2, value), repl2) =>
    (Except.ok (inner2, value), repl2, cond is_slave [] (write_int_bytes value))

/-- Reply bytes written by handlers.rs `get` for each read result: the null
bulk for a missing value, the raw bytes for a `String`, and the canonical
decimal rendering (`to_string`) for an `Int`. -/
def getReplyBytes (result : Option SimpleValue) : List Nat :=
  match result with
  | none => [36, 45, 49] ++ crlf
  | some (SimpleValue.String data) => write_binary_string_bytes data true
  | some (SimpleValue.Int data) => write_binary_string_bytes (intToDecimal data) true

/-- Model of handlers.rs `get`: read the key and write the reply. -/
def get_handler (inner : StorageInner) (now_ts : Nat) (key : List Nat) :
    List Nat × StorageInner :=
  let p := Storage.get_simple inner now_ts key
  (getReplyBytes p.1, p.2)

theorem lookupKey_insertKey (inner : StorageInner) (key : List Nat) (v : StorageItem) :
    lookupKey (insertKey inner key v) key = some v := by
  induction inner with
  | nil => rw [insertKey, lookupKey, if_pos rfl]
  | cons p rest ih =>
    obtain ⟨k, w⟩ := p
    rw [insertKey]
    by_cases hk : k = key
    · rw [if_pos hk, lookupKey, if_pos rfl]
    · rw [if_neg hk, lookupKey, if_neg hk, ih]

theorem lookupKey_mem_keys (inner : StorageInner) (key : List Nat) (v : StorageItem)
    (h : lookupKey inner key = some v) : key ∈ Storage.keys inner := by
  induction inner with
  | nil => exact absurd h (by rw [lookupKey]; exact fun hc => Option.noConfusion hc)
  | cons p rest ih =>
    obtain ⟨k, w⟩ := p
    rw [lookupKey] at h
    rw [Storage.keys, List.map_cons]
    by_cases hk : k = key
    · exact hk ▸ List.mem_cons_self _ _
    · rw [if_neg hk] at h
      exact List.mem_cons_of_mem _ (ih h)

/-- Counterexample to Claim C7: INCR of the key `k` (byte 107) holding the
non-integer string "a".  The mismatch produces the can-not-increment
invalid-arguments error, but the incr handler writes no bytes at all to the
client (the error is propagated and then swallowed by
`handle_command_ignore_invalid`, which only logs to stderr), so the canonical
error string — carried only by the never-called `ArgsError::get_message` — is
not reported to the client: the written byte string is empty and differs from
the canonical message's bytes. -/
theorem claim_c7_counterexample :
    incr_handler
          [([107], StorageItem.Simple { value := SimpleValue.String [97], expires_at := none })]
          [107] { sent := [], master_written_offset := 0 }
          { byte_size := 0, name := [], raw := [] } false
        = (Except.error (HandleError.InvalidArgs ArgsError.CanNotIncrementThisValue),
          { sent := [], master_written_offset := 0 }, [])
      ∧ handle_command_ignore_invalid
            (Except.error (HandleError.InvalidArgs ArgsError.CanNotIncrementThisValue))
          = some ()
      ∧ ([] : List Nat)
          ≠ (ArgsError.get_message ArgsError.CanNotIncrementThisValue).data.map
              (fun ch => ch.toNat) := by
  refine ⟨rfl, rfl, by decide⟩

/-- Claim C7 (amended): the keyspace increment.  (1) An absent key is created
as the integer 0 and then incremented, storing and returning 1.  (2) A key set
to bytes that parse as a signed 64-bit decimal integer is promoted to the
`Int` variant at write time and the increment succeeds, producing the wrapped
successor (equal to `x + 1` whenever no overflow occurs).  (3) A key holding a
non-integer string or a stream yields the mismatch: `do_incr` returns the
can-not-increment error — whose internal message is exactly
"ERR value is not an integer or out of range" — and publishes nothing to the
replication bus; but that error is not reported to the client: the incr
handler writes no reply bytes for the mismatched command, and
`handle_command_ignore_invalid` swallows the error so the connection merely
continues. -/
theorem claim_c7_increment (inner0 inner1 inner2 : StorageInner) (key v s : List Nat)
    (e e2 : Option Nat) (x : Int) (st : List StreamEntry) (repl : Replication)
    (command : Command) (is_slave : Bool) :
    (lookupKey inner0 key = none →
        Storage.increment inner0 key
          = some (insertKey inner0 key
              (StorageItem.Simple { value := SimpleValue.Int 1, expires_at := none }), 1))
      ∧ (get_int_value v = some x →
          StorageItemSimple.from_data v e = { value := SimpleValue.Int x, expires_at := e }
            ∧ Storage.increment (Storage.set_string inner1 key (StorageItemSimple.from_data v e))
                  key
                = some (insertKey
                    (Storage.set_string inner1 key (StorageItemSimple.from_data v e)) key
                    (StorageItem.Simple { value := SimpleValue.Int (wrapI64 (x + 1)),
                                          expires_at := e }),
                  wrapI64 (x + 1))
            ∧ (-(2 ^ 63) ≤ x → x < i64Max → wrapI64 (x + 1) = x + 1))
      ∧ ((lookupKey inner2 key
            = some (StorageItem.Simple { value := SimpleValue.String s, expires_at := e2 })
          ∨ lookupKey inner2 key = some (StorageItem.Stream st)) →
          do_incr inner2 key repl command
              = (Except.error (HandleError.InvalidArgs ArgsError.CanNotIncrementThisValue), repl)
            ∧ incr_handler inner2 key repl command is_slave
                = (Except.error (HandleError.InvalidArgs ArgsError.CanNotIncrementThisValue),
                  repl, [])
            ∧ handle_command_ignore_invalid
                  (Except.error (HandleError.InvalidArgs ArgsError.CanNotIncrementThisValue))
                = some ()
            ∧ ArgsError.get_message ArgsError.CanNotIncrementThisValue
                = "ERR value is not an integer or out of range") := by
  refine ⟨?_, ?_, ?_⟩
  · intro hlook
    rw [Storage.increment, hlook]
    rfl
  · intro hx
    have hfd : StorageItemSimple.from_data v e
        = { value := SimpleValue.Int x, expires_at := e } := by
      rw [StorageItemSimple.from_data, hx]
    refine ⟨hfd, ?_, ?_⟩
    · rw [Storage.increment, Storage.set_string, lookupKey_insertKey, hfd]
    · intro h1 h2
      have h2b : x < 2 ^ 63 - 1 := h2
      show (x + 1 + 2 ^ 63) % 2 ^ 64 - 2 ^ 63 = x + 1
      omega
  · intro hmis
    have hinc : Storage.increment inner2 key = none := by
      cases hmis with
      | inl h => rw [Storage.increment, h]
      | inr h => rw [Storage.increment, h]
    have hdo : do_incr inner2 key repl command
        = (Except.error (HandleError.InvalidArgs ArgsError.CanNotIncrementThisValue), repl) := by
      rw [do_incr, hinc]
    refine ⟨hdo, ?_, rfl, rfl⟩
    rw [incr_handler, hdo]

/-- Witness for the amended Claim C7: incrementing the absent key `k` (byte
107) in the empty map; incrementing after setting the value bytes "5"; and
incrementing a key holding the non-integer string "a", which yields the
mismatch error with an empty client write. -/
theorem claim_c7_increment_witness :
    Storage.increment [] [107]
        = some ([([107],
            StorageItem.Simple { value := SimpleValue.Int 1, expires_at := none })], 1)
      ∧ Storage.increment
            (Storage.set_string [] [107] (StorageItemSimple.from_data [53] none)) [107]
          = some (insertKey (Storage.set_string [] [107] (StorageItemSimple.from_data [53] none))
              [107]
              (StorageItem.Simple { value := SimpleValue.Int (wrapI64 (5 + 1)),
                                    expires_at := none }),
            wrapI64 (5 + 1))
      ∧ do_incr [([107],
            StorageItem.Simple { value := SimpleValue.String [97], expires_at := none })]
            [107] { sent := [], master_written_offset := 0 }
            { byte_size := 0, name := [], raw := [] }
          = (Except.error (HandleError.InvalidArgs ArgsError.CanNotIncrementThisValue),
            { sent := [], master_written_offset := 0 })
      ∧ incr_handler [([107],
            StorageItem.Simple { value := SimpleValue.String [97], expires_at := none })]
            [107] { sent := [], master_written_offset := 0 }
            { byte_size := 0, name := [], raw := [] } false
          = (Except.error (HandleError.InvalidArgs ArgsError.CanNotIncrementThisValue),
            { sent := [], master_written_offset := 0 }, []) := by
  refine ⟨?_, ?_, ?_, ?_⟩
  · have h := (claim_c7_increment [] [] [] [107] [] [] none none 0 []
      { sent := [], master_written_offset := 0 }
      { byte_size := 0, name := [], raw := [] } false).1 rfl
    rw [h]
    rfl
  · exact ((claim_c7_increment [] [] [] [107] [53] [] none none 5 []
      { sent := [], master_written_offset := 0 }
      { byte_size := 0, name := [], raw := [] } false).2.1 (by decide)).2.1
  · exact ((claim_c7_increment [] []
      [([107], StorageItem.Simple { value := SimpleValue.String [97], expires_at := none })]
      [107] [] [97] none none 0 []
      { sent := [], master_written_offset := 0 }
      { byte_size := 0, name := [], raw := [] } false).2.2 (Or.inl rfl)).1
  · exact ((claim_c7_increment [] []
      [([107], StorageItem.Simple { value := SimpleValue.String [97], expires_at := none })]
      [107] [] [97] none none 0 []
      { sent := [], master_written_offset := 0 }
      { byte_size := 0, name := [], raw := [] } false).2.2 (Or.inl rfl)).2.1

/-- Claim C9: a GET of key `k` after a SET of `k` to bytes `v`, before any
expiry, replies with the canonical decimal re-rendering when `v` parses as a
signed 64-bit decimal integer (because `from_data` stores such values as the
`Int` variant at write time), and with `v` unchanged otherwise. -/
theorem claim_c9_set_then_get (inner : StorageInner) (key v : List Nat) (e : Option Nat)
    (now_ts : Nat)
    (hexp : (StorageItemSimple.from_data v e).is_expired now_ts = false) :
    (get_handler (Storage.set_string inner key (StorageItemSimple.from_data v e)) now_ts key).1
      = match get_int_value v with
        | some x => write_binary_string_bytes (intToDecimal x) true
        | none => write_binary_string_bytes v true := by
  rw [get_handler]
  dsimp only
  rw [Storage.get_simple, Storage.set_string, lookupKey_insertKey]
  dsimp only
  rw [hexp]
  rw [if_neg (fun hc => Bool.noConfusion hc)]
  cases hg : get_int_value v with
  | some x =>
    rw [StorageItemSimple.from_data, hg]
    rfl
  | none =>
    rw [StorageItemSimple.from_data, hg]
    rfl

/-- Witness for Claim C9 at value bytes "+05": the stored value is promoted to
the integer 5 and GET replies with the two-byte rendering "5" inside a bulk
string, not with the original three bytes. -/
theorem claim_c9_set_then_get_witness :
    (get_handler (Storage.set_string [] [107] (StorageItemSimple.from_data [43, 48, 53] none))
          0 [107]).1
        = write_binary_string_bytes (intToDecimal 5) true
      ∧ write_binary_string_bytes (intToDecimal 5) true = [36, 49, 13, 10, 53, 13, 10]
      ∧ write_binary_string_bytes (intToDecimal 5) true
          ≠ write_binary_string_bytes [43, 48, 53] true := by
  refine ⟨?_, by decide, by decide⟩
  have h := claim_c9_set_then_get [] [107] [43, 48, 53] none 0 (by decide)
  rw [h]
  rfl

/-- Claim C10: `Storage::keys` returns every key present in the map — with no
expiry filtering, so a key whose string value has already expired but has not
yet been removed by a read is still listed — while a GET of such a key returns
the null read. -/
theorem claim_c10_keys_unfiltered (inner : StorageInner) (key : List Nat)
    (item : StorageItemSimple) (now_ts : Nat)
    (hlook : lookupKey inner key = some (StorageItem.Simple item))
    (hexp : item.is_expired now_ts = true) :
    (∀ k2 v2, lookupKey inner k2 = some v2 → k2 ∈ Storage.keys inner)
      ∧ key ∈ Storage.keys inner
      ∧ (Storage.get_simple inner now_ts key).1 = none := by
  refine ⟨fun k2 v2 h2 => lookupKey_mem_keys inner k2 v2 h2,
    lookupKey_mem_keys inner key _ hlook, ?_⟩
  rw [Storage.get_simple, hlook]
  dsimp only
  rw [hexp]
  rw [if_pos rfl]

/-- Witness for Claim C10: a single-entry map whose string value expired at
time 5, read at time 10. -/
theorem claim_c10_keys_unfiltered_witness :
    (∀ k2 v2,
        lookupKey
            [([107], StorageItem.Simple { value := SimpleValue.String [97],
                                          expires_at := some 5 })] k2
          = some v2 →
        k2 ∈ Storage.keys
            [([107], StorageItem.Simple { value := SimpleValue.String [97],
                                          expires_at := some 5 })])
      ∧ [107] ∈ Storage.keys
          [([107], StorageItem.Simple { value := SimpleValue.String [97],
                                        expires_at := some 5 })]
      ∧ (Storage.get_simple
            [([107], StorageItem.Simple { value := SimpleValue.String [97],
                                          expires_at := some 5 })] 10 [107]).1 = none :=
  claim_c10_keys_unfiltered
    [([107], StorageItem.Simple { value := SimpleValue.String [97], expires_at := some 5 })]
    [107] { value := SimpleValue.String [97], expires_at := some 5 } 10 rfl (by decide)

/-! ## Snapshot loader length encoding (rdb.rs) -/

/-- Model of nom `take(n)`: `none` when the input is too short, otherwise the
remaining input paired with the taken bytes (nom's `(rest, taken)` order). -/
def nomTake (n : Nat) (tail : List Nat) : Option (List Nat × List Nat) :=
  if tail.length < n then none else some (tail.drop n, tail.take n)

/-- Model of nom `le_u32`: four bytes read as a little-endian 32-bit
unsigned integer. -/
def le_u32 (tail : List Nat) : Option (List Nat × Nat) :=
  match tail with
  | b0 :: b1 :: b2 :: b3 :: rest => some (rest, b0 + 256 * b1 + 65536 * b2 + 16777216 * b3)
  | _ => none

/-- Model of rdb.rs `length_encoding_control`: read one control byte; the high
two bits (mask `0b11000000`, shifted right by 6) select the scheme and the low
six bits carry the inline value. -/
def length_encoding_control (tail : List Nat) : Option (List Nat × (Nat × Nat)) :=
  match tail with
  | [] => none
  | first :: rest => some (rest, ((first &&& 192) >>> 6, first &&& 63))

/-- Model of rdb.rs `string_normal`: scheme `0b00` takes `value` bytes; scheme
`0b01` builds the length as `u16::from_le_bytes([value, next])`, that is
`value + 256 * next`; scheme `0b10` reads the length as a 4-byte
**little-endian** integer (`le_u32`) and takes that many bytes.  The source's
`unreachable!()` for `0b11` is modelled as `none` (the function is never
called with that scheme). -/
def string_normal (tail : List Nat) (kind value : Nat) : Option (List Nat × List Nat) :=
  match kind with
  | 0 => nomTake value tail
  | 1 =>
    match tail with
    | [] => none
    | next :: rest => nomTake (value + 256 * next) rest
  | 2 =>
    match le_u32 tail with
    | none => none
    | some (rest, length) => nomTake length rest
  | _ => none

/-- Modelled from the spec: the same length decoding but with the `10` scheme
reading, in the spec's words, "a 4-byte big-endian length"; written only to be
compared against the source's `string_normal`. -/
def string_normal_be_spec (tail : List Nat) (kind value : Nat) :
    Option (List Nat × List Nat) :=
  match kind with
  | 0 => nomTake value tail
  | 1 =>
    match tail with
    | [] => none
    | next :: rest => nomTake (value + 256 * next) rest
  | 2 =>
    match tail with
    | b0 :: b1 :: b2 :: b3 :: rest =>
      nomTake (16777216 * b0 + 65536 * b1 + 256 * b2 + b3) rest
    | _ => none
  | _ => none

/-- Counterexample to Claim C8: after the control byte `0x80` (high bits 10),
the four bytes 01 00 00 00 denote length 1 in the source (little-endian), so
the one following byte is taken; under the claimed big-endian reading the
length would be 16777216 and this input would be rejected as too short.  The
two readings disagree on this concrete input. -/
theorem claim_c8_counterexample :
    length_encoding_control [128, 1, 0, 0, 0, 65] = some ([1, 0, 0, 0, 65], (2, 0))
      ∧ string_normal [1, 0, 0, 0, 65] 2 0 = some ([], [65])
      ∧ string_normal_be_spec [1, 0, 0, 0, 65] 2 0 = none
      ∧ string_normal [1, 0, 0, 0, 65] 2 0 ≠ string_normal_be_spec [1, 0, 0, 0, 65] 2 0 := by
  refine ⟨by decide, by decide, by decide, by decide⟩

/-- Claim C8 (amended): when the high two bits of the control byte are 10, the
length is the value of the following 4 bytes interpreted as a
**little-endian** unsigned integer; and when they are 01, the 14-bit length
spans the control byte's low six bits and the next byte (the next byte
supplying the high-order part, `value + 256 * next`). -/
theorem claim_c8_length_schemes (c b0 b1 b2 b3 next value : Nat) (tail rest : List Nat)
    (hc : 128 ≤ c) (hc2 : c ≤ 191) :
    length_encoding_control (c :: tail) = some (tail, (2, c - 128))
      ∧ string_normal (b0 :: b1 :: b2 :: b3 :: rest) 2 value
          = nomTake (b0 + 256 * b1 + 65536 * b2 + 16777216 * b3) rest
      ∧ string_normal (next :: rest) 1 value = nomTake (value + 256 * next) rest := by
  refine ⟨?_, rfl, rfl⟩
  interval_cases c <;> rfl

/-- Witness for the amended Claim C8 at control byte 0x80 and length bytes
01 00 00 00. -/
theorem claim_c8_length_schemes_witness :
    length_encoding_control (128 :: [1, 0, 0, 0, 65]) = some ([1, 0, 0, 0, 65], (2, 128 - 128))
      ∧ string_normal (1 :: 0 :: 0 :: 0 :: [65]) 2 0
          = nomTake (1 + 256 * 0 + 65536 * 0 + 16777216 * 0) [65]
      ∧ string_normal (7 :: [65]) 1 3 = nomTake (3 + 256 * 7) [65] :=
  claim_c8_length_schemes 128 1 0 0 0 7 3 [1, 0, 0, 0, 65] [65] (by decide) (by decide)

end CCRedis
